import Mathlib

/-!
Verification of the `bevy_vach` virtual-filesystem adapter (`src/lib.rs`).

The crate wraps a `vach` archive behind `bevy_asset`'s `AssetIo` contract.
Below is a shallow embedding of the data model and of the five host-facing
operations (`load_path`, `read_directory`, `get_metadata`,
`watch_path_for_changes`, `watch_for_changes`), followed by theorems about
them.  The `vach` archive itself is an external collaborator: it is modelled
by its registry (an ordered list of key/metadata pairs, the order being the
archive's own enumeration order) together with an abstract `fetch` function;
`fetch_entry` is registry lookup, exactly the presence test the adapter uses.
-/

namespace BevyVach

/-- Model of `std::path::Path`.  The adapter observes a path only through
`Path::to_string_lossy` (the lossy UTF-8 conversion), so a path is modelled
by that string; `PathBuf::from(key)` and `path.into()` both yield the path
holding the given string. -/
structure Path where
  to_string_lossy : String
  deriving DecidableEq, Repr

/-- Model of `vach::prelude::RegistryEntry`, the per-entry metadata stored in
the archive registry.  The adapter never inspects its fields, so a single
representative field suffices. -/
structure RegistryEntry where
  content_version : Nat
  deriving DecidableEq, Repr

/-- Model of `vach::prelude::Resource`: the fully decoded payload returned by
`Archive::fetch`.  The adapter reads only its `data` field (the byte
payload, one `Nat` below 256 per byte). -/
structure Resource where
  data : List Nat
  deriving DecidableEq, Repr

/-- Model of `std::io::ErrorKind` (only the variants relevant here). -/
inductive IoErrorKind where
  | NotFound
  | PermissionDenied
  | UnexpectedEof
  | Other
  deriving DecidableEq, Repr

/-- Model of `std::io::Error`: a kind together with its message. -/
structure IoError where
  kind : IoErrorKind
  message : String
  deriving DecidableEq, Repr

/-- Model of `vach::prelude::InternalError`.  `IOError` and
`MissingResourceError` are the two variants the adapter matches on by name;
every other variant of the real enum (parse, validation, decompression,
cryptography failures, ...) is represented by `OtherError` carrying its
`Display` rendering, which is all the adapter ever extracts from it. -/
inductive InternalError where
  | IOError (err : IoError)
  | MissingResourceError (id : String)
  | OtherError (description : String)
  deriving DecidableEq, Repr

/-- Model of `std::string::ToString::to_string` on `InternalError` (its
`Display` rendering). -/
def InternalError.to_string : InternalError → String
  | InternalError.IOError e => e.message
  | InternalError.MissingResourceError id => id
  | InternalError.OtherError d => d

/-- Model of `bevy_asset::AssetIoError`, the host-facing error taxonomy. -/
inductive AssetIoError where
  | NotFound (path : Path)
  | Io (err : IoError)
  | PathWatchError (path : Path)
  deriving DecidableEq, Repr

/-- Model of `bevy_asset::FileType`. -/
inductive FileType where
  | File
  | Directory
  deriving DecidableEq, Repr

/-- Model of `bevy_asset::Metadata`. -/
structure Metadata where
  file_type : FileType
  deriving DecidableEq, Repr

/-- Model of `bevy_asset::Metadata::new`. -/
def Metadata.new (t : FileType) : Metadata :=
  ⟨t⟩

/-- Model of the external `vach::prelude::Archive` collaborator.
`entries` is the registry in the archive's own enumeration order (the order
`Archive::entries` yields); `fetch` reads and decodes one entry from the
underlying byte source, which is outside this repository, so it is kept
abstract as a function into `Except`. -/
structure Archive where
  entries : List (String × RegistryEntry)
  fetch : String → Except InternalError Resource

/-- Model of `Archive::fetch_entry`: lookup of a key in the registry backing
`entries`, returning its metadata when present. -/
def Archive.fetch_entry (ar : Archive) (id : String) : Option RegistryEntry :=
  (ar.entries.find? (fun e => e.1 == id)).map Prod.snd

/-- Model of the `VachAssetIo` adapter struct: it holds the archive handle
(`archive: Archive<T>` in the source). -/
structure VachAssetIo where
  archive : Archive

/-- Model of `VachAssetIo::new`: wraps an already-constructed archive
handle.  It is a total function: no failure path exists. -/
def VachAssetIo.new (archive : Archive) : VachAssetIo :=
  ⟨archive⟩

/-- Model of `VachAssetIo::load_path`: converts the path to a key via the
lossy string conversion, fetches it from the archive, and maps the archive
error taxonomy into the host's (`IOError` is forwarded, a missing key
becomes `NotFound` carrying the requested path, and every other archive
error becomes an `Io` error of kind `Other` whose message is the stringified
cause). -/
def load_path (a : VachAssetIo) (path : Path) : Except AssetIoError (List Nat) :=
  match a.archive.fetch path.to_string_lossy with
  | Except.ok res => Except.ok res.data
  | Except.error err =>
      match err with
      | InternalError.IOError e => Except.error (AssetIoError.Io e)
      | InternalError.MissingResourceError _ =>
          Except.error (AssetIoError.NotFound path)
      | InternalError.OtherError d =>
          Except.error (AssetIoError.Io
            ⟨IoErrorKind.Other, (InternalError.OtherError d).to_string⟩)

/-- Model of `VachAssetIo::read_directory`: enumerate the registry, keep the
keys that start with the lossy conversion of the requested path, and return
each surviving key reinterpreted as a path, eagerly collected. -/
def read_directory (a : VachAssetIo) (path : Path) :
    Except AssetIoError (List Path) :=
  Except.ok
    (((a.archive.entries.map Prod.fst).filter
        (fun id => id.startsWith path.to_string_lossy)).map
      (fun id => Path.mk id))

/-- Model of `VachAssetIo::get_metadata`: exact registry lookup first (File),
otherwise a linear scan for any key starting with the path (Directory),
otherwise a `NotFound` failure carrying the path. -/
def get_metadata (a : VachAssetIo) (path : Path) : Except AssetIoError Metadata :=
  match a.archive.fetch_entry path.to_string_lossy with
  | some _ => Except.ok (Metadata.new FileType.File)
  | none =>
      if (a.archive.entries.map Prod.fst).any
          (fun e => e.startsWith path.to_string_lossy) then
        Except.ok (Metadata.new FileType.Directory)
      else
        Except.error (AssetIoError.NotFound path)

/-- Model of `VachAssetIo::watch_path_for_changes`: unconditionally fails
with `PathWatchError` carrying the path. -/
def watch_path_for_changes (_a : VachAssetIo) (path : Path) :
    Except AssetIoError Unit :=
  Except.error (AssetIoError.PathWatchError path)

/-- The fixed message used by `VachAssetIo::watch_for_changes`. -/
def watch_all_message : String :=
  "<Vach Archives are read only, so there is no need to watch for changes. Save yourself the milliseconds>"

/-- Model of `VachAssetIo::watch_for_changes`: unconditionally fails with
`PathWatchError` carrying the fixed message converted to a path. -/
def watch_for_changes (_a : VachAssetIo) : Except AssetIoError Unit :=
  Except.error (AssetIoError.PathWatchError (Path.mk watch_all_message))

/-- One host-facing operation of the adapter, as a reified request. -/
inductive Op where
  | load (p : Path)
  | readDir (p : Path)
  | getMeta (p : Path)
  | watchPath (p : Path)
  | watchAll
  deriving Repr

/-- The answer of one host-facing operation. -/
inductive OpResult where
  | bytes (r : Except AssetIoError (List Nat))
  | listing (r : Except AssetIoError (List Path))
  | meta (r : Except AssetIoError Metadata)
  | watch (r : Except AssetIoError Unit)
  deriving Repr

/-- State-passing form of the adapter's operation table.  Every `AssetIo`
method of the source takes `&self` (a shared borrow) and its body contains
no write to the adapter or the archive, so the translation of each call
returns its answer together with the unchanged adapter state. -/
def run_op (a : VachAssetIo) : Op → OpResult × VachAssetIo
  | Op.load p => (OpResult.bytes (load_path a p), a)
  | Op.readDir p => (OpResult.listing (read_directory a p), a)
  | Op.getMeta p => (OpResult.meta (get_metadata a p), a)
  | Op.watchPath p => (OpResult.watch (watch_path_for_changes a p), a)
  | Op.watchAll => (OpResult.watch (watch_for_changes a), a)

/-- A concrete registry used by the witnesses, mirroring the scenario of the
specification (two texture entries and a config entry). -/
def sample_entries : List (String × RegistryEntry) :=
  [("textures/a.png", ⟨1⟩), ("textures/b.png", ⟨1⟩), ("config.json", ⟨2⟩)]

/-- A concrete fetch function for the witnesses: stored bytes for the three
registry keys, a missing-resource failure for everything else. -/
def sample_fetch : String → Except InternalError Resource := fun id =>
  if id = "textures/a.png" then Except.ok ⟨[10, 20]⟩
  else if id = "textures/b.png" then Except.ok ⟨[30]⟩
  else if id = "config.json" then Except.ok ⟨[40, 50, 60]⟩
  else Except.error (InternalError.MissingResourceError id)

/-- A concrete archive used by the witnesses. -/
def sample_archive : Archive :=
  ⟨sample_entries, sample_fetch⟩

/-- A concrete adapter over `sample_archive`. -/
def sample_adapter : VachAssetIo :=
  ⟨sample_archive⟩

/-- A second adapter over the same `sample_archive`, standing for a clone of
`sample_adapter`. -/
def sample_adapter_clone : VachAssetIo :=
  VachAssetIo.new sample_archive

/-- A concrete archive whose fetch always reports a non-IO, non-missing
archive-level failure, for the error-mapping witness. -/
def corrupt_archive : Archive :=
  ⟨[("a.bin", ⟨1⟩)], fun _ => Except.error (InternalError.OtherError "checksum mismatch")⟩

theorem startsWith_empty (s : String) : s.startsWith "" = true := by
  simp [String.startsWith, Substring.take, String.toSubstring, Substring.nextn,
    BEq.beq, Substring.beq, Substring.bsize, String.substrEq, String.substrEq.loop]

theorem fetch_entry_isSome_iff (ar : Archive) (k : String) :
    (ar.fetch_entry k).isSome = true ↔ k ∈ ar.entries.map Prod.fst := by
  simp [Archive.fetch_entry, Option.isSome_map', List.find?_isSome, List.mem_map]

theorem get_metadata_eq (a : VachAssetIo) (p : Path) :
    get_metadata a p =
      if p.to_string_lossy ∈ a.archive.entries.map Prod.fst then
        Except.ok (Metadata.new FileType.File)
      else if ∃ k ∈ a.archive.entries.map Prod.fst,
          k.startsWith p.to_string_lossy = true then
        Except.ok (Metadata.new FileType.Directory)
      else
        Except.error (AssetIoError.NotFound p) := by
  have hiff := fetch_entry_isSome_iff a.archive p.to_string_lossy
  unfold get_metadata
  cases h : a.archive.fetch_entry p.to_string_lossy with
  | some m =>
      have hmem : p.to_string_lossy ∈ a.archive.entries.map Prod.fst := by
        rw [← hiff, h]
        rfl
      rw [if_pos hmem]
  | none =>
      have hmem : p.to_string_lossy ∉ a.archive.entries.map Prod.fst := by
        rw [← hiff, h]
        simp
      rw [if_neg hmem]
      by_cases hex : ∃ k ∈ a.archive.entries.map Prod.fst,
          k.startsWith p.to_string_lossy = true
      · rw [if_pos hex]
        have hany : (a.archive.entries.map Prod.fst).any
            (fun e => e.startsWith p.to_string_lossy) = true := by
          rw [List.any_eq_true]
          exact hex
        simp [hany]
      · rw [if_neg hex]
        have hany : (a.archive.entries.map Prod.fst).any
            (fun e => e.startsWith p.to_string_lossy) = false := by
          rw [List.any_eq_false]
          intro x hx
          exact fun hsw => hex ⟨x, hx, hsw⟩
        simp [hany]

/-- Claim C1: for every logical path `p`, `get_metadata` follows the decision
procedure: if an entry key exactly equals the lossy conversion of `p` the
result is File; otherwise, if any entry key starts with it, the result is
Directory; otherwise a NotFound failure carrying `p`.  File takes precedence
over Directory. -/
theorem get_metadata_decision (a : VachAssetIo) (p : Path) :
    get_metadata a p =
      if p.to_string_lossy ∈ a.archive.entries.map Prod.fst then
        Except.ok (Metadata.new FileType.File)
      else if ∃ k ∈ a.archive.entries.map Prod.fst,
          k.startsWith p.to_string_lossy = true then
        Except.ok (Metadata.new FileType.Directory)
      else
        Except.error (AssetIoError.NotFound p) :=
  get_metadata_eq a p

/-- Claim C2: for every path whose key exactly matches an archive entry,
`load_path` returns the byte payload the archive stores for that entry,
unmodified and in full, and `get_metadata` returns File. -/
theorem load_exact_key (a : VachAssetIo) (p : Path) (m : RegistryEntry)
    (r : Resource)
    (hmem : (p.to_string_lossy, m) ∈ a.archive.entries)
    (hfetch : a.archive.fetch p.to_string_lossy = Except.ok r) :
    load_path a p = Except.ok r.data ∧
    get_metadata a p = Except.ok (Metadata.new FileType.File) := by
  constructor
  · simp [load_path, hfetch]
  · have hkey : p.to_string_lossy ∈ a.archive.entries.map Prod.fst :=
      List.mem_map.mpr ⟨(p.to_string_lossy, m), hmem, rfl⟩
    rw [get_metadata_eq, if_pos hkey]

theorem load_exact_key_witness :
    load_path sample_adapter (Path.mk "textures/a.png") = Except.ok [10, 20] ∧
    get_metadata sample_adapter (Path.mk "textures/a.png") =
      Except.ok (Metadata.new FileType.File) :=
  load_exact_key sample_adapter (Path.mk "textures/a.png") ⟨1⟩ ⟨[10, 20]⟩
    (by decide) rfl

/-- Claim C3: when the archive fetch fails, `load_path` maps the failure into
the host taxonomy: an underlying `IOError` is surfaced as an `Io` failure
preserving the original error, a `MissingResourceError` becomes `NotFound`
carrying the requested path, and every other archive-level failure becomes an
`Io` failure of kind `Other` whose message is the stringified cause. -/
theorem load_error_mapping (a : VachAssetIo) (p : Path) (err : InternalError)
    (h : a.archive.fetch p.to_string_lossy = Except.error err) :
    load_path a p =
      Except.error (match err with
        | InternalError.IOError e => AssetIoError.Io e
        | InternalError.MissingResourceError _ => AssetIoError.NotFound p
        | InternalError.OtherError _ =>
            AssetIoError.Io ⟨IoErrorKind.Other, err.to_string⟩) := by
  cases err <;> simp [load_path, h, InternalError.to_string]

theorem load_error_mapping_witness :
    load_path (VachAssetIo.new corrupt_archive) (Path.mk "a.bin") =
      Except.error (AssetIoError.Io ⟨IoErrorKind.Other, "checksum mismatch"⟩) :=
  load_error_mapping (VachAssetIo.new corrupt_archive) (Path.mk "a.bin")
    (InternalError.OtherError "checksum mismatch") rfl

/-- Claim C4: `read_directory` never fails; its result lists exactly those
entry keys that start with the lossy conversion of the requested path, each
reinterpreted as a path, in the archive's own enumeration order, and is
empty (rather than a failure) when nothing matches. -/
theorem read_directory_spec (a : VachAssetIo) (p : Path) :
    ∃ l, read_directory a p = Except.ok l ∧
      l.map Path.to_string_lossy =
        (a.archive.entries.map Prod.fst).filter
          (fun k => k.startsWith p.to_string_lossy) := by
  refine ⟨_, rfl, ?_⟩
  have hid : (Path.to_string_lossy ∘ fun id => Path.mk id) = id := rfl
  rw [List.map_map, hid, List.map_id]

/-- Claim C5: both watch operations fail unconditionally: `watch_path_for_changes`
with a `PathWatchError` carrying the requested path, `watch_for_changes`
with a `PathWatchError` carrying the fixed message; neither ever succeeds. -/
theorem watch_operations_always_fail (a : VachAssetIo) (p : Path) :
    watch_path_for_changes a p =
      Except.error (AssetIoError.PathWatchError p) ∧
    watch_for_changes a =
      Except.error (AssetIoError.PathWatchError (Path.mk watch_all_message)) :=
  ⟨rfl, rfl⟩

/-- Claim C7: the `new` constructor is a total function: for every
already-constructed archive handle it succeeds, simply wrapping the given
handle, with no failure path. -/
theorem new_wraps_handle (ar : Archive) :
    VachAssetIo.new ar = ⟨ar⟩ ∧ (VachAssetIo.new ar).archive = ar :=
  ⟨rfl, rfl⟩

/-- Claim C8: `read_directory` with the empty path as prefix returns every
entry key of the archive (every key starts with the empty string), in the
archive's enumeration order. -/
theorem read_directory_empty_path (a : VachAssetIo) :
    read_directory a (Path.mk "") =
      Except.ok (a.archive.entries.map (fun e => Path.mk e.1)) := by
  unfold read_directory
  rw [List.filter_eq_self.mpr (fun k _ => startsWith_empty k)]
  simp [List.map_map, Function.comp]

/-- Claim C9: every operation is a pure read: the adapter state after any
operation equals the state before it, and any adapter sharing the same
underlying archive (a clone, or the same adapter queried again) receives the
identical answer for the identical request. -/
theorem operations_read_only (a : VachAssetIo) (o : Op) :
    (run_op a o).2 = a ∧
    ∀ b : VachAssetIo, b.archive = a.archive → run_op b o = run_op a o := by
  constructor
  · cases o <;> rfl
  · intro b hb
    cases a
    cases b
    cases hb
    rfl

theorem operations_read_only_witness :
    (run_op sample_adapter (Op.load (Path.mk "config.json"))).2 =
      sample_adapter ∧
    run_op sample_adapter_clone (Op.load (Path.mk "config.json")) =
      run_op sample_adapter (Op.load (Path.mk "config.json")) :=
  ⟨(operations_read_only sample_adapter (Op.load (Path.mk "config.json"))).1,
   (operations_read_only sample_adapter (Op.load (Path.mk "config.json"))).2
     sample_adapter_clone rfl⟩

/-- Claim C10: on the empty path, `get_metadata` returns Directory for every
archive that has at least one entry and no entry keyed by the empty string,
and it fails with NotFound exactly when the archive is empty. -/
theorem empty_path_classification (a : VachAssetIo) :
    (a.archive.entries ≠ [] →
      "" ∉ a.archive.entries.map Prod.fst →
      get_metadata a (Path.mk "") =
        Except.ok (Metadata.new FileType.Directory)) ∧
    (get_metadata a (Path.mk "") =
        Except.error (AssetIoError.NotFound (Path.mk "")) ↔
      a.archive.entries = []) := by
  have heq := get_metadata_eq a (Path.mk "")
  simp only [show (Path.mk "").to_string_lossy = "" from rfl] at heq
  constructor
  · intro hne hnotmem
    rw [heq, if_neg hnotmem]
    obtain ⟨e, he⟩ := List.exists_mem_of_ne_nil a.archive.entries hne
    have hex : ∃ k ∈ a.archive.entries.map Prod.fst, k.startsWith "" = true :=
      ⟨e.1, List.mem_map.mpr ⟨e, he, rfl⟩, startsWith_empty e.1⟩
    rw [if_pos hex]
  · rw [heq]
    constructor
    · intro h
      by_contra hne
      obtain ⟨e, he⟩ := List.exists_mem_of_ne_nil a.archive.entries hne
      have hex : ∃ k ∈ a.archive.entries.map Prod.fst, k.startsWith "" = true :=
        ⟨e.1, List.mem_map.mpr ⟨e, he, rfl⟩, startsWith_empty e.1⟩
      by_cases hmem : "" ∈ a.archive.entries.map Prod.fst
      · rw [if_pos hmem] at h
        exact absurd h (by simp)
      · rw [if_neg hmem, if_pos hex] at h
        exact absurd h (by simp)
    · intro h
      simp [h]

theorem empty_path_classification_witness :
    get_metadata sample_adapter (Path.mk "") =
      Except.ok (Metadata.new FileType.Directory) :=
  (empty_path_classification sample_adapter).1 (by decide) (by decide)

end BevyVach
